import Mathlib

/-!
Verification of the recipe data model and templating engine of
`src/frontend/src/create.tsx` (the "brickoven" recipe builder).

Strings are modelled as `List Char`; a step's text is scanned for the
regex `/(?<!\\)\$\d+?/g` exactly as `String.prototype.matchAll` does:
positions are tried left to right, a successful match consumes the
dollar sign plus one digit (the lazy `\d+?` stops at one digit because
nothing follows it in the pattern), and scanning resumes after the match.
-/

abbrev Str := List Char

/-- The two `throw new Error(...)` sites of `StepView.renderText`. -/
inductive RenderError where
  /-- JS message: "missing index in regexp match". -/
  | missingIndex
  /-- JS message: "attempted to reference out-of-bounds ingredient". -/
  | outOfBounds
deriving DecidableEq, Repr

/-- Source: `type Expression = { toExprContent(): string }`.  The method is
modelled as the string it returns. -/
structure Expression where
  toExprContent : Str
deriving DecidableEq, Repr

/-- Source: `type Tool = { id, name, description?, icon? }`. -/
structure Tool where
  id : Str
  name : Str
  description : Option Str := none
  icon : Option Str := none
deriving DecidableEq, Repr

/-- Source: `type Step = { id, text, stepExpressions, tools }`. -/
structure Step where
  id : Str
  text : Str
  stepExpressions : List Expression
  tools : List Tool
deriving DecidableEq, Repr

/-- True when the character at position `p` of `t` exists and is a digit. -/
def isDigitAt (t : Str) (p : Nat) : Bool :=
  match t[p]? with
  | some c => c.isDigit
  | none => false

/-- Position `p` of `t` starts a match of `/(?<!\\)\$\d+?/`: a dollar sign
followed by a digit, with no backslash immediately before it (the negative
lookbehind).  The lazy `\d+?` matches exactly one digit, since no further
pattern forces it to take more. -/
def matchAt (t : Str) (p : Nat) : Bool :=
  decide (t[p]? = some '$') && isDigitAt t (p + 1)
    && (decide (p = 0) || !decide (t[p - 1]? = some '\\'))

/-- The global regex scan from position `p`, fuelled by the number of
characters left to examine: on a match at `p` the engine records the match
and resumes at `p + 2` (past `$` and the single matched digit), otherwise it
advances one position.  `fuel = t.length - p` suffices because every step
advances the position by at least one. -/
def scanAux (t : Str) : Nat → Nat → List Nat
  | 0, _ => []
  | fuel + 1, p =>
    if p < t.length then
      if matchAt t p then p :: scanAux t fuel (p + 2)
      else scanAux t fuel (p + 1)
    else []

/-- All match positions of `text.matchAll(/(?<!\\)\$\d+?/g)` at or after
position `p`, in order of appearance. -/
def scanFrom (t : Str) (p : Nat) : List Nat := scanAux t (t.length - p) p

/-- The loop body of `StepView.renderText`, one iteration per regex match.
Each match is `"$" ++ d` for the digit `d` at `index + 1`, so
`parseInt(matchText.substring(1))` is the numeric value of that digit, and
`cursorPos` advances by `matchText.length = 2`. -/
def renderLoop (text : Str) (stepExpressions : List Expression) :
    List Nat → Nat → Except RenderError Str
  | [], cursorPos => .ok (text.drop cursorPos)
  | index :: rest, cursorPos =>
    -- JS: `if (!index) throw ...` — zero is falsy, so a match at offset 0
    -- raises the "missing index" error even though its index is present.
    if index = 0 then .error .missingIndex
    else
      let d := (text[index + 1]?).getD ' '
      let expressionIndex := d.toNat - '0'.toNat
      if expressionIndex < 0 ∨ stepExpressions.length ≤ expressionIndex then
        .error .outOfBounds
      else
        match renderLoop text stepExpressions rest (index + 2) with
        | .error e => .error e
        | .ok tail =>
          .ok ((text.drop cursorPos).take (index - cursorPos)
              ++ (stepExpressions.getD expressionIndex ⟨[]⟩).toExprContent
              ++ tail)

/-- Source: `StepView.renderText` — substitute every regex match of the
step's text by the referenced expression's content, keeping the literal
text between matches, and append the tail after the last match. -/
def renderText (step : Step) : Except RenderError Str :=
  renderLoop step.text step.stepExpressions (scanFrom step.text 0) 0

/-- Source: the closed set of measurement units (`mL`, `g`, `tsp`, `°C`,
`oz`, `inch`, `blank`). -/
inductive MUnit where
  | mL | g | tsp | celsius | oz | inch | blank
deriving DecidableEq, Repr

/-- Source: `type Amount = { value: number, unit: Unit }`. -/
structure Amount where
  value : Rat
  unit : MUnit
deriving DecidableEq, Repr

/-- Source: `type Ingredient = { id, name, amount, notes?, toExprContent }`;
the factory `ingr` sets `toExprContent` to return `name`. -/
structure Ingredient where
  id : Str
  name : Str
  amount : List Amount
  notes : Option Str := none
  toExprContent : Str
deriving DecidableEq, Repr

/-- Tagged union of the source's `Brick` and `BrickConnection` types.  The
constructor plays the role of the `type` discriminant field (`'brick'` /
`'connection'`); `parent` of a brick is `Brick | BrickConnection | null`,
and the inputs of a connection are `(Brick | BrickConnection)[]`. -/
inductive BrickNode where
  | brick (parent : Option BrickNode) (id : Str) (title : Option Str)
      (steps : List Step) (outputs : List Ingredient)
  | connection (inputs : List BrickNode) (connectionMethod : Str)

/-- Source: `connect(inputs, connectionMethod)` — builds the connection
object directly; there is no check on `inputs` (in particular no emptiness
check). -/
def connect (inputs : List BrickNode) (connectionMethod : Str) : BrickNode :=
  BrickNode.connection inputs connectionMethod

/-- Renders a list of steps in array order (the `<ul>` of `StepView` items
inside `BrickView`); a thrown error from any step propagates. -/
def renderSteps : List Step → Except RenderError (List Str)
  | [] => .ok []
  | s :: ss =>
    match renderText s with
    | .error e => .error e
    | .ok r =>
      match renderSteps ss with
      | .error e => .error e
      | .ok rs => .ok (r :: rs)

mutual
/-- The text content produced by `BrickView` / `BrickConnectionView`, in
document order.  A brick renders its parent first (when non-null,
dispatching on the parent's constructor, as `BrickOrConnection` dispatches
on the `type` tag) and then its own steps; a connection renders each input
in array order (again dispatched on its own tag) and then the literal
`connectionMethod` label. -/
def renderNode : BrickNode → Except RenderError (List Str)
  | .brick none _ _ steps _ => renderSteps steps
  | .brick (some p) _ _ steps _ =>
    match renderNode p with
    | .error e => .error e
    | .ok up =>
      match renderSteps steps with
      | .error e => .error e
      | .ok own => .ok (up ++ own)
  | .connection inputs connectionMethod =>
    match renderNodes inputs with
    | .error e => .error e
    | .ok ins => .ok (ins ++ [connectionMethod])

/-- Renders each node of a connection's `inputs` array in order,
concatenating the rendered content. -/
def renderNodes : List BrickNode → Except RenderError (List Str)
  | [] => .ok []
  | n :: ns =>
    match renderNode n with
    | .error e => .error e
    | .ok r =>
      match renderNodes ns with
      | .error e => .error e
      | .ok rs => .ok (r ++ rs)
end

/-- `hasPlaceholder t` decides whether any position of `t` starts an
unescaped placeholder token (a match of the source regex). -/
def hasPlaceholder (t : Str) : Bool :=
  (List.range t.length).any fun p => matchAt t p

/-- Every dollar sign of `t` is immediately preceded by a backslash. -/
def allDollarsEscaped (t : Str) : Bool :=
  decide (∀ p < t.length, t[p]? = some '$' → p ≠ 0 ∧ t[p - 1]? = some '\\')

/-- No dollar sign of `t` is followed immediately by a digit. -/
def noDollarDigit (t : Str) : Bool :=
  decide (∀ p < t.length, t[p]? = some '$' → isDigitAt t (p + 1) = false)

example :
    renderText ⟨"s".toList, "Cook $0 for $1".toList,
      [⟨"butter".toList⟩, ⟨"5".toList⟩], []⟩
    = .ok ("Cook butter for 5".toList) := rfl

example :
    renderText ⟨"s".toList, "a$12".toList,
      [⟨"x0".toList⟩, ⟨"x1".toList⟩, ⟨"x2".toList⟩], []⟩
    = .ok ("ax12".toList) := rfl

example :
    renderText ⟨"s".toList, "Use \\$0 here".toList, [⟨"b".toList⟩], []⟩
    = .ok ("Use \\$0 here".toList) := rfl

/-- Every position the scan reports lies at or after the start position,
inside the text, and satisfies the match predicate. -/
theorem scanAux_sound {t : Str} {fuel p r : Nat} (h : r ∈ scanAux t fuel p) :
    p ≤ r ∧ r < t.length ∧ matchAt t r = true := by
  induction fuel generalizing p with
  | zero => simp [scanAux] at h
  | succ fuel ih =>
    simp only [scanAux] at h
    by_cases hlt : p < t.length
    · simp only [if_pos hlt] at h
      by_cases hm : matchAt t p = true
      · simp only [if_pos hm, List.mem_cons] at h
        rcases h with h | h
        · subst h; exact ⟨Nat.le_refl _, hlt, hm⟩
        · obtain ⟨h1, h2, h3⟩ := ih h
          exact ⟨by omega, h2, h3⟩
      · simp only [if_neg hm] at h
        obtain ⟨h1, h2, h3⟩ := ih h
        exact ⟨by omega, h2, h3⟩
    · simp [if_neg hlt] at h

/-- Soundness of the top-level scan. -/
theorem scanFrom_sound {t : Str} {q r : Nat} (h : r ∈ scanFrom t q) :
    q ≤ r ∧ r < t.length ∧ matchAt t r = true := scanAux_sound h

/-- Past the end of the text nothing matches. -/
theorem matchAt_false_of_ge {t : Str} {p : Nat} (h : t.length ≤ p) :
    matchAt t p = false := by
  have : t[p]? = none := by
    simp [List.getElem?_eq_none_iff, h]
  simp [matchAt, this]

/-- When no position matches, the scan is empty. -/
theorem scanAux_nil {t : Str} (hall : ∀ r, matchAt t r = false) :
    ∀ fuel p, scanAux t fuel p = [] := by
  intro fuel
  induction fuel with
  | zero => intro p; rfl
  | succ fuel ih =>
    intro p
    simp [scanAux, hall p, ih]

/-- With no match anywhere, `renderText` returns the step's text verbatim. -/
theorem renderText_of_no_match {s : Step} (h : ∀ r, matchAt s.text r = false) :
    renderText s = .ok s.text := by
  unfold renderText scanFrom
  rw [scanAux_nil h]
  simp [renderLoop]

theorem matchAt_false_of_not_hasPlaceholder {t : Str}
    (h : hasPlaceholder t = false) : ∀ r, matchAt t r = false := by
  intro r
  by_cases hr : r < t.length
  · have h2 : ¬ ((List.range t.length).any fun p => matchAt t p) = true := by
      rw [hasPlaceholder] at h; rw [h]; simp
    simp only [List.any_eq_true, List.mem_range, not_exists, not_and] at h2
    exact Bool.eq_false_iff.mpr (h2 r hr)
  · exact matchAt_false_of_ge (by omega)

theorem matchAt_false_of_allDollarsEscaped {t : Str}
    (h : allDollarsEscaped t = true) : ∀ r, matchAt t r = false := by
  intro r
  by_cases hr : r < t.length
  · have h2 := of_decide_eq_true h
    by_cases hd : t[r]? = some '$'
    · obtain ⟨hr0, hbs⟩ := h2 r hr hd
      simp [matchAt, hd, hr0, hbs]
    · simp [matchAt, hd]
  · exact matchAt_false_of_ge (by omega)

theorem matchAt_false_of_noDollarDigit {t : Str}
    (h : noDollarDigit t = true) : ∀ r, matchAt t r = false := by
  intro r
  by_cases hr : r < t.length
  · have h2 := of_decide_eq_true h
    by_cases hd : t[r]? = some '$'
    · simp [matchAt, hd, h2 r hr hd]
    · simp [matchAt, hd]
  · exact matchAt_false_of_ge (by omega)

/-- A digit character's numeric value, as computed by
`parseInt(matchText.substring(1))` on a one-digit match, is below 10. -/
theorem digit_toNat_lt_ten {d : Char} (h : d.isDigit = true) :
    d.toNat - '0'.toNat < 10 := by
  rw [Char.isDigit] at h
  simp only [Bool.and_eq_true, decide_eq_true_eq] at h
  obtain ⟨h1, h2⟩ := h
  have hle : d.val.toNat ≤ 57 := h2
  have h0 : '0'.toNat = 48 := rfl
  have hd : d.toNat = d.val.toNat := rfl
  omega

/-- Two consecutive lookups determine the first two characters of the
dropped suffix. -/
theorem take_two {t : Str} {p : Nat} {a b : Char}
    (ha : t[p]? = some a) (hb : t[p + 1]? = some b) :
    (t.drop p).take 2 = [a, b] := by
  have h1 : (t.drop p)[0]? = some a := by
    rw [List.getElem?_drop]; simpa using ha
  have h2 : (t.drop p)[1]? = some b := by
    rw [List.getElem?_drop]; simpa using hb
  rcases hd : t.drop p with _ | ⟨x, _ | ⟨y, rest⟩⟩
  · rw [hd] at h1; simp at h1
  · rw [hd] at h1 h2; simp at h2
  · rw [hd] at h1 h2
    simp at h1 h2
    simp [h1, h2]

/-- C1: code-bug evidence — a well-formed step whose text begins with the
placeholder `$0` (character offset 0) does not get the promised
substitution: the regex match has index 0, the falsy-zero guard
`if (!index)` fires, and `renderText` throws "missing index in regexp
match" instead of replacing `$0` by the expression content. -/
theorem c1_offset_zero_bug :
    renderText ⟨"s1".toList, "$0 melted".toList,
      [⟨"unsalted butter".toList⟩], []⟩ = .error .missingIndex := rfl

/-- C2: counterexample — in "a$12" with three expressions the claim would
parse the whole digit run as index 12 (out of bounds for a 3-element
list), but the lazy `\d+?` matches only the first digit: expression 1 is
substituted and the digit '2' is emitted as literal text. -/
theorem c2_counterexample :
    renderText ⟨"s2".toList, "a$12".toList,
      [⟨"x0".toList⟩, ⟨"x1".toList⟩, ⟨"x2".toList⟩], []⟩
    = .ok ("ax12".toList) := rfl

/-- C2 (amended): every scan match is an unescaped dollar sign followed by
a digit, the matched token is exactly the dollar sign plus that single
digit (two characters), and the parsed index is the digit's value, below
10 — further digits are not part of the token. -/
theorem c2_single_digit_token (t : Str) (q p : Nat) (h : p ∈ scanFrom t q) :
    t[p]? = some '$'
    ∧ isDigitAt t (p + 1) = true
    ∧ (p = 0 ∨ t[p - 1]? ≠ some '\\')
    ∧ ∀ d, t[p + 1]? = some d →
        (t.drop p).take 2 = ['$', d] ∧ d.toNat - '0'.toNat < 10 := by
  obtain ⟨-, -, hm⟩ := scanFrom_sound h
  rw [matchAt] at hm
  simp only [Bool.and_eq_true, Bool.or_eq_true, Bool.not_eq_true',
    decide_eq_true_eq, decide_eq_false_iff_not] at hm
  obtain ⟨⟨h1, h2⟩, h3⟩ := hm
  refine ⟨h1, h2, h3, ?_⟩
  intro d hd
  refine ⟨take_two h1 hd, ?_⟩
  apply digit_toNat_lt_ten
  rw [isDigitAt, hd] at h2
  exact h2

/-- C2 witness: the scan of "a$12" matches at position 1, and the token
there is `$1` with index 1. -/
theorem c2_witness :
    ("a$12".toList)[1]? = some '$'
    ∧ isDigitAt ("a$12".toList) 2 = true
    ∧ ((1 : Nat) = 0 ∨ ("a$12".toList)[0]? ≠ some '\\')
    ∧ ∀ d, ("a$12".toList)[2]? = some d →
        (("a$12".toList).drop 1).take 2 = ['$', d]
        ∧ d.toNat - '0'.toNat < 10 :=
  c2_single_digit_token ("a$12".toList) 0 1 (by decide)

/-- C3: code-bug evidence — every placeholder of "$1 cup of sugar" has a
parseable in-bounds digit index, yet `renderText` raises the "missing
index in regexp match" error, because the match sits at offset 0 and the
guard `if (!index)` treats the present index 0 as missing. -/
theorem c3_parseable_index_still_errors :
    renderText ⟨"s3".toList, "$1 cup of sugar".toList,
      [⟨"e0".toList⟩, ⟨"e1".toList⟩], []⟩ = .error .missingIndex := rfl

/-- C4: counterexample — `connect` performs no emptiness check: a
Connection with zero inputs is constructed successfully (no
EmptyConnectionError exists anywhere in the code), and it even renders,
to just the connectionMethod label. -/
theorem c4_counterexample :
    connect [] ("mix".toList) = BrickNode.connection [] ("mix".toList)
    ∧ renderNode (connect [] ("mix".toList)) = .ok [("mix".toList)] :=
  ⟨rfl, rfl⟩

/-- C4 (amended): constructing a Connection from an empty inputs list
succeeds for every method label — the result is a connection node with
zero inputs whose render is just the label. -/
theorem c4_no_empty_check (connectionMethod : Str) :
    connect [] connectionMethod = BrickNode.connection [] connectionMethod
    ∧ renderNode (connect [] connectionMethod) = .ok [connectionMethod] := by
  refine ⟨rfl, ?_⟩
  simp [connect, renderNode, renderNodes]

/-- C5: code-bug evidence — "Add $5" with two expressions fails with the
out-of-bounds error as the claim states, but the same out-of-range
placeholder written at character offset 0 ("$5") fails with "missing
index in regexp match" instead: the falsy-zero guard fires before the
bounds check is reached. -/
theorem c5_out_of_bounds :
    renderText ⟨"s5".toList, "Add $5".toList,
      [⟨"e0".toList⟩, ⟨"e1".toList⟩], []⟩ = .error .outOfBounds
    ∧ renderText ⟨"t5".toList, "$5".toList,
      [⟨"e0".toList⟩, ⟨"e1".toList⟩], []⟩ = .error .missingIndex :=
  ⟨rfl, rfl⟩

/-- C6: a dollar sign immediately preceded by a backslash is never matched
by the scanner, so it never triggers a substitution; and a step whose
dollar signs are all escaped renders to its text verbatim — the escaping
backslashes are preserved in the output, not stripped or consumed. -/
theorem c6_escaped_literal (t : Str) (q : Nat) (h : t[q]? = some '\\') :
    ((q + 1) ∉ scanFrom t 0)
    ∧ ∀ s : Step, allDollarsEscaped s.text = true →
        renderText s = .ok s.text := by
  constructor
  · intro hmem
    obtain ⟨-, -, hm⟩ := scanFrom_sound hmem
    rw [matchAt] at hm
    simp [Nat.add_sub_cancel, h] at hm
  · intro s hs
    exact renderText_of_no_match (matchAt_false_of_allDollarsEscaped hs)

/-- C6 witness: in "Use \$0 here" the backslash sits at position 4, the
dollar at position 5 is never matched, and the text renders verbatim. -/
theorem c6_witness :
    (("Use \\$0 here".toList)[4]? = some '\\')
    ∧ ((5 : Nat) ∉ scanFrom ("Use \\$0 here".toList) 0)
    ∧ renderText ⟨"s6".toList, "Use \\$0 here".toList, [⟨"e0".toList⟩], []⟩
        = .ok ("Use \\$0 here".toList) :=
  ⟨by decide, (c6_escaped_literal ("Use \\$0 here".toList) 4 (by decide)).1,
    (c6_escaped_literal ("Use \\$0 here".toList) 4 (by decide)).2 _ (by decide)⟩

/-- C7: a step whose text contains no unescaped placeholder token renders
to exactly its text (identity when nothing is substituted). -/
theorem c7_no_placeholder_identity (s : Step)
    (h : hasPlaceholder s.text = false) : renderText s = .ok s.text :=
  renderText_of_no_match (matchAt_false_of_not_hasPlaceholder h)

/-- C7 witness: a placeholder-free step text passes through unchanged. -/
theorem c7_witness :
    hasPlaceholder ("Bake until golden.".toList) = false
    ∧ renderText ⟨"s7".toList, "Bake until golden.".toList, [], []⟩
        = .ok ("Bake until golden.".toList) :=
  ⟨by decide, c7_no_placeholder_identity _ (by decide)⟩

/-- C8: a stage with a non-null parent renders the parent's full render
first (whatever node kind the parent is) and then its own steps in array
order; a stage with `parent = null` renders only its own steps, in array
order. -/
theorem c8_stage_render_order (p : BrickNode) (i : Str) (ti : Option Str)
    (s1 s2 : Step) (o : List Ingredient) (up : List Str) (r1 r2 : Str)
    (hp : renderNode p = .ok up)
    (h1 : renderText s1 = .ok r1) (h2 : renderText s2 = .ok r2) :
    renderNode (BrickNode.brick (some p) i ti [s1, s2] o)
      = .ok (up ++ [r1, r2])
    ∧ renderNode (BrickNode.brick none i ti [s1, s2] o) = .ok [r1, r2] := by
  constructor <;> simp [renderNode, renderSteps, hp, h1, h2]

/-- C8 witness: a concrete two-step stage under a one-step parent renders
parent-then-own-steps; the same stage with a null parent renders only its
own steps. -/
theorem c8_witness :
    renderNode (BrickNode.brick
        (some (BrickNode.brick none ("p".toList) none
          [⟨"sp".toList, "prep".toList, [], []⟩] []))
        ("c".toList) none
        [⟨"sa".toList, "first".toList, [], []⟩,
         ⟨"sb".toList, "second".toList, [], []⟩] [])
      = .ok (["prep".toList] ++ ["first".toList, "second".toList])
    ∧ renderNode (BrickNode.brick none ("c".toList) none
        [⟨"sa".toList, "first".toList, [], []⟩,
         ⟨"sb".toList, "second".toList, [], []⟩] [])
      = .ok ["first".toList, "second".toList] :=
  c8_stage_render_order _ _ _ _ _ _ _ _ _ rfl rfl rfl

/-- C9: a connection with inputs `[A, B]` renders A's full render, then
B's full render, then the literal method label, in that order; swapping
the inputs swaps the rendered order correspondingly. -/
theorem c9_connection_render_order (A B : BrickNode) (m : Str)
    (a b : List Str) (ha : renderNode A = .ok a) (hb : renderNode B = .ok b) :
    renderNode (BrickNode.connection [A, B] m) = .ok (a ++ b ++ [m])
    ∧ renderNode (BrickNode.connection [B, A] m) = .ok (b ++ a ++ [m]) := by
  constructor <;> simp [renderNode, renderNodes, ha, hb]

/-- C9 witness: two concrete one-step bricks combined under "mix" render
in input order, and swapping the inputs swaps the output order. -/
theorem c9_witness :
    renderNode (BrickNode.connection
        [BrickNode.brick none ("a".toList) none
          [⟨"sa".toList, "cream".toList, [], []⟩] [],
         BrickNode.brick none ("b".toList) none
          [⟨"sb".toList, "whisk".toList, [], []⟩] []]
        ("mix".toList))
      = .ok (["cream".toList] ++ ["whisk".toList] ++ [("mix".toList)])
    ∧ renderNode (BrickNode.connection
        [BrickNode.brick none ("b".toList) none
          [⟨"sb".toList, "whisk".toList, [], []⟩] [],
         BrickNode.brick none ("a".toList) none
          [⟨"sa".toList, "cream".toList, [], []⟩] []]
        ("mix".toList))
      = .ok (["whisk".toList] ++ ["cream".toList] ++ [("mix".toList)]) :=
  c9_connection_render_order _ _ _ _ _ rfl rfl

/-- C10: counterexample — "x$9$" contains a dollar sign at position 3 not
followed by a digit (it ends the text), yet rendering the step fails,
because the earlier token `$9` is out of bounds for an empty expression
list; so "rendering does not fail" does not hold as stated. -/
theorem c10_counterexample :
    (("x$9$".toList)[3]? = some '$')
    ∧ (("x$9$".toList)[4]? = none)
    ∧ renderText ⟨"s10".toList, "x$9$".toList, [], []⟩
        = .error .outOfBounds :=
  ⟨rfl, rfl, rfl⟩

/-- C10 (amended): a dollar sign not followed immediately by a digit is
never matched as a placeholder token; and when no dollar sign of the text
is followed by a digit, rendering does not fail and emits the text — such
dollar signs included — verbatim. -/
theorem c10_nondigit_dollar (t : Str) (p q : Nat)
    (h : isDigitAt t (p + 1) = false) :
    (p ∉ scanFrom t q)
    ∧ ∀ s : Step, noDollarDigit s.text = true →
        renderText s = .ok s.text := by
  constructor
  · intro hmem
    obtain ⟨-, -, hm⟩ := scanFrom_sound hmem
    rw [matchAt] at hm
    simp [h] at hm
  · intro s hs
    exact renderText_of_no_match (matchAt_false_of_noDollarDigit hs)

/-- C10 witness: in "Cost: $ 5" the dollar at position 6 is followed by a
space, is never matched, and the step renders to its text unchanged. -/
theorem c10_witness :
    isDigitAt ("Cost: $ 5".toList) 7 = false
    ∧ ((6 : Nat) ∉ scanFrom ("Cost: $ 5".toList) 0)
    ∧ renderText ⟨"t10".toList, "Cost: $ 5".toList, [], []⟩
        = .ok ("Cost: $ 5".toList) :=
  ⟨by decide, (c10_nondigit_dollar ("Cost: $ 5".toList) 6 0 (by decide)).1,
    (c10_nondigit_dollar ("Cost: $ 5".toList) 6 0 (by decide)).2 _ (by decide)⟩
